import Mathlib

/-!
Shallow embedding of the midi_cc_sender core (src/src/lib.rs):
input validators, the CC#122 message encoder, and the local-control
value interpreter, together with proofs of the specified properties.

Strings are modelled as lists of characters; u8 values as natural
numbers with explicit bounds where they matter.
-/

namespace MidiCC

/-- The single-quote character (U+0027) that the Rust diagnostic
messages place around the echoed input. -/
def squote : Char := Char.ofNat 39

/-- Unicode White_Space property, the predicate behind the char
method is_whitespace in Rust, hence behind str trim. -/
def rustIsWhitespace (c : Char) : Bool :=
  (9 ≤ c.toNat && c.toNat ≤ 13) || c.toNat == 32 || c.toNat == 133 ||
  c.toNat == 160 || c.toNat == 5760 || (8192 ≤ c.toNat && c.toNat ≤ 8202) ||
  c.toNat == 8232 || c.toNat == 8233 || c.toNat == 8239 || c.toNat == 8287 ||
  c.toNat == 12288

/-- Rust str trim: remove leading and trailing whitespace. -/
def trim (s : List Char) : List Char :=
  ((s.dropWhile rustIsWhitespace).reverse.dropWhile rustIsWhitespace).reverse

/-- ASCII digit test (code points 48 to 57). -/
def isAsciiDigit (c : Char) : Bool := 48 ≤ c.toNat && c.toNat ≤ 57

/-- Numeric value of a big-endian ASCII digit string. -/
def digitsVal (l : List Char) : Nat :=
  l.foldl (fun a c => a * 10 + (c.toNat - 48)) 0

/-- Rust str parse::<u8>: an optional single leading plus sign, then one
or more ASCII digits, with the value required to fit in 0..255.
A leading minus sign, any other non-digit character, or overflow past
255 is a parse error (returns none). -/
def parseU8 (s : List Char) : Option Nat :=
  let digits :=
    match s with
    | [] => ([] : List Char)
    | c :: rest => if c = '+' then rest else c :: rest
  if digits = [] then none
  else if digits.all isAsciiDigit then
    if digitsVal digits ≤ 255 then some (digitsVal digits) else none
  else none

/-- The ASCII digit character for n (meaningful for n < 10). -/
def digitChar (n : Nat) : Char := Char.ofNat (48 + n)

/-- Fuelled canonical decimal printer (most significant digit first). -/
def decReprAux : Nat → Nat → List Char
  | 0, _ => []
  | fuel + 1, n =>
    if n < 10 then [digitChar n]
    else decReprAux fuel (n / 10) ++ [digitChar (n % 10)]

/-- Canonical decimal representation of a natural number, as produced by
the Rust Display formatting of unsigned integers. -/
def decRepr (n : Nat) : List Char := decReprAux (n + 1) n

/-- Embedding of validate_midi_value (src/src/lib.rs lines 5-15):
trim the input; empty means silent default 0; otherwise parse as u8 and
accept values up to 127, reporting out-of-range or invalid input with a
warning message and default 0. -/
def validate_midi_value (input : List Char) : Nat × Option (List Char) :=
  if trim input = [] then (0, none)
  else
    match parseU8 (trim input) with
    | some val =>
      if val ≤ 127 then (val, none)
      else (0, some ("Warning: Value ".toList ++ decRepr val ++
        " is out of range (0-127). Using default value 0.".toList))
    | none =>
      (0, some ("Warning: Invalid value ".toList ++ [squote] ++ trim input ++
        [squote] ++ ". Using default value 0.".toList))

/-- Embedding of validate_midi_channel (src/src/lib.rs lines 19-29):
identical to the value validator except for the bound 15 and the
channel wording. -/
def validate_midi_channel (input : List Char) : Nat × Option (List Char) :=
  if trim input = [] then (0, none)
  else
    match parseU8 (trim input) with
    | some ch =>
      if ch ≤ 15 then (ch, none)
      else (0, some ("Warning: Channel ".toList ++ decRepr ch ++
        " is out of range (0-15). Using default channel 0.".toList))
    | none =>
      (0, some ("Warning: Invalid channel ".toList ++ [squote] ++ trim input ++
        [squote] ++ ". Using default channel 0.".toList))

/-- Embedding of create_midi_cc_122_message (src/src/lib.rs lines 33-42):
check value then channel, and on success build the 3-byte message.
The status byte addition is u8 arithmetic, hence the mod 256 (which
never truncates given the channel guard). -/
def create_midi_cc_122_message (value channel : Nat) :
    Except (List Char) (List Nat) :=
  if value > 127 then
    Except.error ("Invalid MIDI value: ".toList ++ decRepr value ++
      ". Must be 0-127.".toList)
  else if channel > 15 then
    Except.error ("Invalid MIDI channel: ".toList ++ decRepr channel ++
      ". Must be 0-15.".toList)
  else
    Except.ok [(0xB0 + channel) % 256, 122, value]

/-- Embedding of interpret_local_control_value (src/src/lib.rs lines 45-51). -/
def interpret_local_control_value (value : Nat) : List Char :=
  if value = 0 then "Local Control Off".toList
  else if value = 127 then "Local Control On".toList
  else "Custom Local Control Value".toList

/-! ### Basic facts about digits and the decimal printer -/

lemma digitChar_toNat {n : Nat} (h : n < 10) : (digitChar n).toNat = 48 + n := by
  interval_cases n <;> decide

lemma isAsciiDigit_digitChar {n : Nat} (h : n < 10) :
    isAsciiDigit (digitChar n) = true := by
  interval_cases n <;> decide

lemma toNat_bounds_of_isAsciiDigit {c : Char} (h : isAsciiDigit c = true) :
    48 ≤ c.toNat ∧ c.toNat ≤ 57 := by
  simpa [isAsciiDigit] using h

lemma not_whitespace_of_isAsciiDigit {c : Char} (h : isAsciiDigit c = true) :
    rustIsWhitespace c = false := by
  obtain ⟨h1, h2⟩ := toNat_bounds_of_isAsciiDigit h
  simp only [rustIsWhitespace]
  simp only [Bool.or_eq_false_iff, Bool.and_eq_false_iff,
    decide_eq_false_iff_not, not_le, beq_eq_false_iff_ne, ne_eq]
  omega

lemma ne_plus_of_isAsciiDigit {c : Char} (h : isAsciiDigit c = true) :
    c ≠ '+' := by
  intro hc
  subst hc
  simp [isAsciiDigit] at h

lemma digitsVal_append_singleton (l : List Char) (c : Char) :
    digitsVal (l ++ [c]) = 10 * digitsVal l + (c.toNat - 48) := by
  simp [digitsVal, List.foldl_append]
  omega

lemma digitsVal_singleton (c : Char) : digitsVal [c] = c.toNat - 48 := by
  simp [digitsVal]

lemma decReprAux_spec :
    ∀ fuel n, n < 10 ^ (fuel + 1) →
      decReprAux (fuel + 1) n ≠ [] ∧
      (∀ c ∈ decReprAux (fuel + 1) n, isAsciiDigit c = true) ∧
      digitsVal (decReprAux (fuel + 1) n) = n := by
  intro fuel
  induction fuel with
  | zero =>
    intro n hn
    have h10 : n < 10 := by simpa using hn
    refine ⟨by simp [decReprAux, h10], ?_, ?_⟩
    · intro c hc
      simp [decReprAux, h10] at hc
      subst hc
      exact isAsciiDigit_digitChar h10
    · simp [decReprAux, h10, digitsVal_singleton, digitChar_toNat h10]
  | succ fuel ih =>
    intro n hn
    by_cases h10 : n < 10
    · refine ⟨by simp [decReprAux, h10], ?_, ?_⟩
      · intro c hc
        simp [decReprAux, h10] at hc
        subst hc
        exact isAsciiDigit_digitChar h10
      · simp [decReprAux, h10, digitsVal_singleton, digitChar_toNat h10]
    · have hdiv : n / 10 < 10 ^ (fuel + 1) := by
        rw [Nat.div_lt_iff_lt_mul (by norm_num)]
        calc n < 10 ^ (fuel + 1 + 1) := hn
          _ = 10 ^ (fuel + 1) * 10 := by ring
      obtain ⟨hne, hdig, hval⟩ := ih (n / 10) hdiv
      have hmod : n % 10 < 10 := Nat.mod_lt _ (by norm_num)
      have hstep : decReprAux (fuel + 1 + 1) n =
          decReprAux (fuel + 1) (n / 10) ++ [digitChar (n % 10)] := by
        simp [decReprAux, h10]
      refine ⟨by simp [hstep], ?_, ?_⟩
      · intro c hc
        rw [hstep] at hc
        rcases List.mem_append.mp hc with hc | hc
        · exact hdig c hc
        · rw [List.mem_singleton] at hc
          subst hc
          exact isAsciiDigit_digitChar hmod
      · rw [hstep, digitsVal_append_singleton, hval, digitChar_toNat hmod]
        omega

lemma decRepr_spec (n : Nat) :
    decRepr n ≠ [] ∧ (∀ c ∈ decRepr n, isAsciiDigit c = true) ∧
      digitsVal (decRepr n) = n := by
  have hpow : n < 10 ^ (n + 1) := by
    calc n < 10 ^ n := Nat.lt_pow_self (by norm_num) n
      _ ≤ 10 ^ (n + 1) := Nat.pow_le_pow_right (by norm_num) (Nat.le_succ n)
  exact decReprAux_spec n n hpow

lemma decRepr_ne_nil (n : Nat) : decRepr n ≠ [] := (decRepr_spec n).1

lemma decRepr_all_digits (n : Nat) :
    ∀ c ∈ decRepr n, isAsciiDigit c = true := (decRepr_spec n).2.1

lemma digitsVal_decRepr (n : Nat) : digitsVal (decRepr n) = n :=
  (decRepr_spec n).2.2

lemma parseU8_decRepr {n : Nat} (h : n ≤ 255) :
    parseU8 (decRepr n) = some n := by
  rcases hd : decRepr n with _ | ⟨c, rest⟩
  · exact absurd hd (decRepr_ne_nil n)
  · have hc : isAsciiDigit c = true := by
      refine decRepr_all_digits n c ?_
      rw [hd]; exact List.mem_cons_self c rest
    have hall : ∀ x ∈ c :: rest, isAsciiDigit x = true := by
      intro x hx
      refine decRepr_all_digits n x ?_
      rw [hd]; exact hx
    have hval : digitsVal (c :: rest) = n := by
      rw [← hd]; exact digitsVal_decRepr n
    simp only [parseU8, if_neg ( ne_plus_of_isAsciiDigit hc)]
    rw [if_neg (by simp), if_pos (by simpa [List.all_eq_true] using hall),
      hval, if_pos h]

/-! ### Facts about trimming -/

lemma dropWhile_eq_nil_of_all {p : Char → Bool} {l : List Char}
    (h : ∀ c ∈ l, p c = true) : l.dropWhile p = [] := by
  have h2 := @List.dropWhile_append_of_pos Char p l [] h
  simpa using h2

lemma dropWhile_eq_self_of_head {p : Char → Bool} {l : List Char}
    (h : ∀ c, l.head? = some c → p c = false) : l.dropWhile p = l := by
  cases l with
  | nil => rfl
  | cons c rest => simp [List.dropWhile_cons, h c rfl]

lemma trim_eq_nil_of_all_whitespace {l : List Char}
    (h : ∀ c ∈ l, rustIsWhitespace c = true) : trim l = [] := by
  simp [trim, dropWhile_eq_nil_of_all h]

lemma trim_sandwich (ws1 ws2 l : List Char)
    (h1 : ∀ c ∈ ws1, rustIsWhitespace c = true)
    (h2 : ∀ c ∈ ws2, rustIsWhitespace c = true)
    (hh : ∀ c, l.head? = some c → rustIsWhitespace c = false)
    (hl : ∀ c, l.getLast? = some c → rustIsWhitespace c = false) :
    trim (ws1 ++ l ++ ws2) = l := by
  unfold trim
  rw [List.append_assoc, List.dropWhile_append_of_pos h1,
    List.dropWhile_append, dropWhile_eq_self_of_head hh]
  by_cases hnil : l = []
  · subst hnil
    simp [dropWhile_eq_nil_of_all h2]
  · have hemp : l.isEmpty = false := by
      cases l with
      | nil => exact absurd rfl hnil
      | cons c rest => rfl
    rw [hemp]
    simp only [Bool.false_eq_true, if_false]
    rw [List.reverse_append,
      List.dropWhile_append_of_pos (by simpa using h2),
      dropWhile_eq_self_of_head (by simpa using hl), List.reverse_reverse]

lemma trim_decRepr (n : Nat) : trim (decRepr n) = decRepr n := by
  have h := trim_sandwich [] [] (decRepr n) (by simp) (by simp)
    (fun c hc => not_whitespace_of_isAsciiDigit
      (decRepr_all_digits n c (List.mem_of_mem_head? hc)))
    (fun c hc => not_whitespace_of_isAsciiDigit
      (decRepr_all_digits n c (by
        have h2 : c ∈ (decRepr n).reverse := List.mem_of_mem_head? (by simpa using hc)
        simpa using h2)))
  simpa using h

/-! ### Reduction lemmas for the validators -/

lemma validate_midi_value_of_parse_ok {input : List Char} {v : Nat}
    (hne : trim input ≠ []) (hp : parseU8 (trim input) = some v)
    (hv : v ≤ 127) : validate_midi_value input = (v, none) := by
  unfold validate_midi_value
  rw [if_neg hne, hp]
  simp [hv]

lemma validate_midi_value_of_out_of_range {input : List Char} {v : Nat}
    (hne : trim input ≠ []) (hp : parseU8 (trim input) = some v)
    (hv : 127 < v) :
    validate_midi_value input = (0, some ("Warning: Value ".toList ++
      decRepr v ++ " is out of range (0-127). Using default value 0.".toList)) := by
  unfold validate_midi_value
  rw [if_neg hne, hp]
  simp [Nat.not_le.mpr hv]

lemma validate_midi_value_of_parse_err {input : List Char}
    (hne : trim input ≠ []) (hp : parseU8 (trim input) = none) :
    validate_midi_value input = (0, some ("Warning: Invalid value ".toList ++
      [squote] ++ trim input ++ [squote] ++
      ". Using default value 0.".toList)) := by
  unfold validate_midi_value
  rw [if_neg hne, hp]

lemma validate_midi_channel_of_parse_ok {input : List Char} {c : Nat}
    (hne : trim input ≠ []) (hp : parseU8 (trim input) = some c)
    (hc : c ≤ 15) : validate_midi_channel input = (c, none) := by
  unfold validate_midi_channel
  rw [if_neg hne, hp]
  simp [hc]

lemma validate_midi_channel_of_out_of_range {input : List Char} {c : Nat}
    (hne : trim input ≠ []) (hp : parseU8 (trim input) = some c)
    (hc : 15 < c) :
    validate_midi_channel input = (0, some ("Warning: Channel ".toList ++
      decRepr c ++ " is out of range (0-15). Using default channel 0.".toList)) := by
  unfold validate_midi_channel
  rw [if_neg hne, hp]
  simp [Nat.not_le.mpr hc]

lemma validate_midi_channel_of_parse_err {input : List Char}
    (hne : trim input ≠ []) (hp : parseU8 (trim input) = none) :
    validate_midi_channel input = (0, some ("Warning: Invalid channel ".toList ++
      [squote] ++ trim input ++ [squote] ++
      ". Using default channel 0.".toList)) := by
  unfold validate_midi_channel
  rw [if_neg hne, hp]

lemma validate_midi_value_bounds (input : List Char) :
    (validate_midi_value input).1 ≤ 127 ∧
    (∀ m, (validate_midi_value input).2 = some m →
      (validate_midi_value input).1 = 0) := by
  unfold validate_midi_value
  split
  · simp
  · split
    · split
      · simp_all
      · simp
    · simp

lemma validate_midi_channel_bounds (input : List Char) :
    (validate_midi_channel input).1 ≤ 15 ∧
    (∀ m, (validate_midi_channel input).2 = some m →
      (validate_midi_channel input).1 = 0) := by
  unfold validate_midi_channel
  split
  · simp
  · split
    · split
      · simp_all
      · simp
    · simp

lemma mem_of_getLast?_eq {l : List Char} {c : Char}
    (h : l.getLast? = some c) : c ∈ l := by
  have h2 : c ∈ l.reverse := List.mem_of_mem_head? (by simpa using h)
  simpa using h2

lemma trim_ws_decRepr (n : Nat) (ws1 ws2 : List Char)
    (h1 : ∀ c ∈ ws1, rustIsWhitespace c = true)
    (h2 : ∀ c ∈ ws2, rustIsWhitespace c = true) :
    trim (ws1 ++ decRepr n ++ ws2) = decRepr n :=
  trim_sandwich ws1 ws2 _ h1 h2
    (fun c hc => not_whitespace_of_isAsciiDigit
      (decRepr_all_digits n c (List.mem_of_mem_head? hc)))
    (fun c hc => not_whitespace_of_isAsciiDigit
      (decRepr_all_digits n c (mem_of_getLast?_eq hc)))

/-! ### The claims -/

/-- Claim C1: for every value in [0,127] and channel in [0,15],
create_midi_cc_122_message succeeds and returns exactly the 3-byte array
[0xB0 + channel, 122, value]; the status byte's low nibble is the channel
and its high nibble is 0xB; byte 1 is always 122 and byte 2 the value. -/
theorem c1_encode_success (value channel : Nat)
    (hv : value ≤ 127) (hc : channel ≤ 15) :
    create_midi_cc_122_message value channel =
      Except.ok [0xB0 + channel, 122, value] ∧
    (0xB0 + channel) % 16 = channel ∧ (0xB0 + channel) / 16 = 0xB := by
  refine ⟨?_, by omega, by omega⟩
  unfold create_midi_cc_122_message
  rw [if_neg (by omega), if_neg (by omega), Nat.mod_eq_of_lt (by omega)]

theorem c1_encode_success_witness :
    create_midi_cc_122_message 127 15 = Except.ok [0xB0 + 15, 122, 127] ∧
    (0xB0 + 15) % 16 = 15 ∧ (0xB0 + 15) / 16 = 0xB :=
  c1_encode_success 127 15 (by decide) (by decide)

/-- Claim C6: every input that is empty or consists entirely of whitespace
characters (any Unicode whitespace) yields the silent default (0, none)
from both validators. -/
theorem c6_whitespace_silent_default (input : List Char)
    (h : ∀ c ∈ input, rustIsWhitespace c = true) :
    validate_midi_value input = (0, none) ∧
    validate_midi_channel input = (0, none) := by
  have ht : trim input = [] := trim_eq_nil_of_all_whitespace h
  constructor
  · unfold validate_midi_value
    rw [if_pos ht]
  · unfold validate_midi_channel
    rw [if_pos ht]

theorem c6_whitespace_silent_default_witness :
    validate_midi_value ("\t\n ".toList) = (0, none) ∧
    validate_midi_channel ("\t\n ".toList) = (0, none) :=
  c6_whitespace_silent_default ("\t\n ".toList) (by decide)

/-- Claim C7: interpret_local_control_value maps 0 to the Off label, 127 to
the On label, and every value in [1,126] to the Custom label; it is a pure
total function with no failure path. -/
theorem c7_interpret_labels :
    interpret_local_control_value 0 = "Local Control Off".toList ∧
    interpret_local_control_value 127 = "Local Control On".toList ∧
    (∀ x, 1 ≤ x → x ≤ 126 →
      interpret_local_control_value x = "Custom Local Control Value".toList) := by
  refine ⟨rfl, rfl, ?_⟩
  intro x h1 h2
  unfold interpret_local_control_value
  rw [if_neg (by omega), if_neg (by omega)]

theorem c7_interpret_labels_witness :
    interpret_local_control_value 64 = "Custom Local Control Value".toList :=
  c7_interpret_labels.2.2 64 (by decide) (by decide)

/-- Claim C8: for every input string the resolved value lies in [0,127]
(and the resolved channel in [0,15]), and whenever a diagnostic is
returned the resolved integer paired with it is exactly 0. -/
theorem c8_resolved_bounds (input : List Char) :
    (validate_midi_value input).1 ≤ 127 ∧
    (validate_midi_channel input).1 ≤ 15 ∧
    (∀ m, (validate_midi_value input).2 = some m →
      (validate_midi_value input).1 = 0) ∧
    (∀ m, (validate_midi_channel input).2 = some m →
      (validate_midi_channel input).1 = 0) :=
  ⟨(validate_midi_value_bounds input).1, (validate_midi_channel_bounds input).1,
   (validate_midi_value_bounds input).2, (validate_midi_channel_bounds input).2⟩

theorem c8_resolved_bounds_witness :
    (validate_midi_value ("999".toList)).1 = 0 :=
  (c8_resolved_bounds ("999".toList)).2.2.1
    ("Warning: Invalid value ".toList ++ [squote] ++ "999".toList ++
      [squote] ++ ". Using default value 0.".toList) (by decide)

/-- Claim C9: on validated inputs the encoded message [status, 122, value]
has status = 0xB0 ||| channel, which coincides with the 0xB0 + channel the
code computes (no byte overflow); the status byte has its most significant
bit set while the controller and value bytes have it clear. -/
theorem c9_wire_format_invariants (value channel : Nat)
    (hv : value ≤ 127) (hc : channel ≤ 15) :
    create_midi_cc_122_message value channel =
      Except.ok [0xB0 ||| channel, 122, value] ∧
    0xB0 + channel = 0xB0 ||| channel ∧
    128 ≤ 0xB0 + channel ∧ 0xB0 + channel ≤ 255 ∧
    (122 : Nat) < 128 ∧ value < 128 := by
  have hor : 0xB0 + channel = 0xB0 ||| channel := by
    have h : ∀ c < 16, 0xB0 + c = 0xB0 ||| c := by decide
    exact h channel (by omega)
  refine ⟨?_, hor, by omega, by omega, by norm_num, by omega⟩
  rw [← hor]
  unfold create_midi_cc_122_message
  rw [if_neg (by omega), if_neg (by omega), Nat.mod_eq_of_lt (by omega)]

theorem c9_wire_format_invariants_witness :
    create_midi_cc_122_message 127 15 = Except.ok [0xB0 ||| 15, 122, 127] ∧
    0xB0 + 15 = 0xB0 ||| 15 ∧
    128 ≤ 0xB0 + 15 ∧ 0xB0 + 15 ≤ 255 ∧ (122 : Nat) < 128 ∧ 127 < 128 :=
  c9_wire_format_invariants 127 15 (by decide) (by decide)

/-- Claim C10: feeding the validators' resolved results into the encoder
never fails: for any two input strings the encoder returns ok. -/
theorem c10_validated_then_encode_ok (s t : List Char) :
    ∃ bytes, create_midi_cc_122_message (validate_midi_value s).1
      (validate_midi_channel t).1 = Except.ok bytes := by
  have hv := (validate_midi_value_bounds s).1
  have hc := (validate_midi_channel_bounds t).1
  refine ⟨[(0xB0 + (validate_midi_channel t).1) % 256, 122,
    (validate_midi_value s).1], ?_⟩
  unfold create_midi_cc_122_message
  rw [if_neg (by omega), if_neg (by omega)]

/-- Claim C2: every integer v in [0,127] written as decimal text, possibly
surrounded by whitespace, is accepted verbatim by validate_midi_value with
no diagnostic; likewise every c in [0,15] by validate_midi_channel. -/
theorem c2_validators_accept_in_range :
    (∀ (v : Nat) (ws1 ws2 : List Char), v ≤ 127 →
      (∀ c ∈ ws1, rustIsWhitespace c = true) →
      (∀ c ∈ ws2, rustIsWhitespace c = true) →
      validate_midi_value (ws1 ++ decRepr v ++ ws2) = (v, none)) ∧
    (∀ (ch : Nat) (ws1 ws2 : List Char), ch ≤ 15 →
      (∀ c ∈ ws1, rustIsWhitespace c = true) →
      (∀ c ∈ ws2, rustIsWhitespace c = true) →
      validate_midi_channel (ws1 ++ decRepr ch ++ ws2) = (ch, none)) := by
  constructor
  · intro v ws1 ws2 hv h1 h2
    have ht := trim_ws_decRepr v ws1 ws2 h1 h2
    exact validate_midi_value_of_parse_ok
      (by rw [ht]; exact decRepr_ne_nil v)
      (by rw [ht]; exact parseU8_decRepr (by omega)) hv
  · intro ch ws1 ws2 hc h1 h2
    have ht := trim_ws_decRepr ch ws1 ws2 h1 h2
    exact validate_midi_channel_of_parse_ok
      (by rw [ht]; exact decRepr_ne_nil ch)
      (by rw [ht]; exact parseU8_decRepr (by omega)) hc

theorem c2_validators_accept_in_range_witness :
    validate_midi_value (" ".toList ++ decRepr 100 ++ " ".toList) =
      (100, none) ∧
    validate_midi_channel (" ".toList ++ decRepr 10 ++ " ".toList) =
      (10, none) :=
  ⟨c2_validators_accept_in_range.1 100 (" ".toList) (" ".toList)
      (by decide) (by decide) (by decide),
   c2_validators_accept_in_range.2 10 (" ".toList) (" ".toList)
      (by decide) (by decide) (by decide)⟩

/-- Claim C4: every decimal text for an integer v in [128,255] draws from
validate_midi_value a diagnostic containing "out of range", the exact
number v as parsed, and the bound 0-127; likewise validate_midi_channel
for c in [16,255] with the bound 0-15. -/
theorem c4_out_of_range_diagnostics :
    (∀ v : Nat, 128 ≤ v → v ≤ 255 →
      ∃ m, validate_midi_value (decRepr v) = (0, some m) ∧
        "out of range".toList <:+: m ∧ decRepr v <:+: m ∧
        "0-127".toList <:+: m) ∧
    (∀ c : Nat, 16 ≤ c → c ≤ 255 →
      ∃ m, validate_midi_channel (decRepr c) = (0, some m) ∧
        "out of range".toList <:+: m ∧ decRepr c <:+: m ∧
        "0-15".toList <:+: m) := by
  constructor
  · intro v h1 h2
    have ht := trim_decRepr v
    have heq := validate_midi_value_of_out_of_range
      (by rw [ht]; exact decRepr_ne_nil v)
      (by rw [ht]; exact parseU8_decRepr h2) (by omega)
    refine ⟨_, heq, ?_, ?_, ?_⟩
    · exact List.IsInfix.trans (by decide)
        ( List.IsSuffix.isInfix ( List.suffix_append _ _))
    · exact List.infix_append _ _ _
    · exact List.IsInfix.trans (by decide)
        ( List.IsSuffix.isInfix ( List.suffix_append _ _))
  · intro c h1 h2
    have ht := trim_decRepr c
    have heq := validate_midi_channel_of_out_of_range
      (by rw [ht]; exact decRepr_ne_nil c)
      (by rw [ht]; exact parseU8_decRepr h2) (by omega)
    refine ⟨_, heq, ?_, ?_, ?_⟩
    · exact List.IsInfix.trans (by decide)
        ( List.IsSuffix.isInfix ( List.suffix_append _ _))
    · exact List.infix_append _ _ _
    · exact List.IsInfix.trans (by decide)
        ( List.IsSuffix.isInfix ( List.suffix_append _ _))

theorem c4_out_of_range_diagnostics_witness :
    (∃ m, validate_midi_value (decRepr 200) = (0, some m) ∧
      "out of range".toList <:+: m ∧ decRepr 200 <:+: m ∧
      "0-127".toList <:+: m) ∧
    (∃ m, validate_midi_channel (decRepr 16) = (0, some m) ∧
      "out of range".toList <:+: m ∧ decRepr 16 <:+: m ∧
      "0-15".toList <:+: m) :=
  ⟨c4_out_of_range_diagnostics.1 200 (by decide) (by decide),
   c4_out_of_range_diagnostics.2 16 (by decide) (by decide)⟩

/-- Claim C5: over the u8 domain, create_midi_cc_122_message fails exactly
when value > 127 or channel > 15; with value > 127 the failure is the
value-range error (containing the offending value and the bound 0-127),
regardless of the channel, so when both are out of range only the value
error is reported; with value ≤ 127 and channel > 15 the failure is the
channel-range error (containing the offending channel and the bound 0-15). -/
theorem c5_encode_failure_characterization (value channel : Nat)
    (hv8 : value ≤ 255) (hc8 : channel ≤ 255) :
    ((∃ e, create_midi_cc_122_message value channel = Except.error e) ↔
      (127 < value ∨ 15 < channel)) ∧
    (127 < value →
      create_midi_cc_122_message value channel =
        Except.error ("Invalid MIDI value: ".toList ++ decRepr value ++
          ". Must be 0-127.".toList) ∧
      ∃ e, create_midi_cc_122_message value channel = Except.error e ∧
        "Invalid MIDI value".toList <:+: e ∧ decRepr value <:+: e ∧
        "0-127".toList <:+: e) ∧
    (value ≤ 127 → 15 < channel →
      ∃ e, create_midi_cc_122_message value channel = Except.error e ∧
        "Invalid MIDI channel".toList <:+: e ∧ decRepr channel <:+: e ∧
        "0-15".toList <:+: e) := by
  by_cases hv : 127 < value
  · have heq : create_midi_cc_122_message value channel =
        Except.error ("Invalid MIDI value: ".toList ++ decRepr value ++
          ". Must be 0-127.".toList) := by
      unfold create_midi_cc_122_message
      rw [if_pos hv]
    refine ⟨⟨fun _ => Or.inl hv, fun _ => ⟨_, heq⟩⟩,
      fun _ => ⟨heq, _, heq, ?_, ?_, ?_⟩, fun hle _ => absurd hv (by omega)⟩
    · have h1 : "Invalid MIDI value".toList <:+:
          "Invalid MIDI value: ".toList := by decide
      refine List.IsInfix.trans h1 ( List.IsPrefix.isInfix ?_)
      rw [List.append_assoc]
      exact List.prefix_append _ _
    · exact List.infix_append _ _ _
    · exact List.IsInfix.trans (by decide)
        ( List.IsSuffix.isInfix ( List.suffix_append _ _))
  · by_cases hc : 15 < channel
    · have heq : create_midi_cc_122_message value channel =
          Except.error ("Invalid MIDI channel: ".toList ++ decRepr channel ++
            ". Must be 0-15.".toList) := by
        unfold create_midi_cc_122_message
        rw [if_neg hv, if_pos hc]
      refine ⟨⟨fun _ => Or.inr hc, fun _ => ⟨_, heq⟩⟩,
        fun h127 => absurd h127 hv, fun _ _ => ⟨_, heq, ?_, ?_, ?_⟩⟩
      · have h1 : "Invalid MIDI channel".toList <:+:
            "Invalid MIDI channel: ".toList := by decide
        refine List.IsInfix.trans h1 ( List.IsPrefix.isInfix ?_)
        rw [List.append_assoc]
        exact List.prefix_append _ _
      · exact List.infix_append _ _ _
      · exact List.IsInfix.trans (by decide)
          ( List.IsSuffix.isInfix ( List.suffix_append _ _))
    · have heq : create_midi_cc_122_message value channel =
          Except.ok [(0xB0 + channel) % 256, 122, value] := by
        unfold create_midi_cc_122_message
        rw [if_neg hv, if_neg hc]
      refine ⟨⟨?_, fun hor => absurd hor (by omega)⟩,
        fun h127 => absurd h127 hv, fun _ h15 => absurd h15 hc⟩
      rintro ⟨e, he⟩
      rw [heq] at he
      exact absurd he (by simp)

theorem c5_encode_failure_characterization_witness :
    ((∃ e, create_midi_cc_122_message 200 20 = Except.error e) ↔
      (127 < 200 ∨ 15 < 20)) ∧
    (127 < 200 →
      create_midi_cc_122_message 200 20 =
        Except.error ("Invalid MIDI value: ".toList ++ decRepr 200 ++
          ". Must be 0-127.".toList) ∧
      ∃ e, create_midi_cc_122_message 200 20 = Except.error e ∧
        "Invalid MIDI value".toList <:+: e ∧ decRepr 200 <:+: e ∧
        "0-127".toList <:+: e) ∧
    (200 ≤ 127 → 15 < 20 →
      ∃ e, create_midi_cc_122_message 200 20 = Except.error e ∧
        "Invalid MIDI channel".toList <:+: e ∧ decRepr 20 <:+: e ∧
        "0-15".toList <:+: e) :=
  c5_encode_failure_characterization 200 20 (by decide) (by decide)

/-- Claim C3 counterexample: the claim asserts that any text with a leading
sign, '+' included, is a parse failure drawing an Invalid-value diagnostic;
but the u8 parser accepts an optional leading '+', so the input "+5" (whose
trimmed text is non-empty and starts with a sign) is resolved to 5 with no
diagnostic by both validators. -/
theorem c3_counterexample :
    trim ("+5".toList) ≠ [] ∧
    ("+5".toList).head? = some '+' ∧
    validate_midi_value ("+5".toList) = (5, none) ∧
    validate_midi_channel ("+5".toList) = (5, none) := by
  refine ⟨by decide, by decide, by decide, by decide⟩

/-- Claim C3 as amended: for every input whose trimmed text is non-empty
and fails to parse as a base-10 integer in 0-255, each validator returns
(0, diagnostic) with the diagnostic containing its Invalid-kind marker and
the trimmed input verbatim; a leading minus sign always fails the parse, as
does any leading character that is neither an ASCII digit nor '+', and so
does an all-digit string whose value exceeds 255 — but a leading '+'
followed by digits is accepted by the parser, not rejected. -/
theorem c3_invalid_input_diagnostics :
    (∀ input : List Char, trim input ≠ [] → parseU8 (trim input) = none →
      (∃ m, validate_midi_value input = (0, some m) ∧
        "Invalid value".toList <:+: m ∧ trim input <:+: m) ∧
      (∃ m, validate_midi_channel input = (0, some m) ∧
        "Invalid channel".toList <:+: m ∧ trim input <:+: m)) ∧
    (∀ rest : List Char, parseU8 ('-' :: rest) = none) ∧
    (∀ (c : Char) (rest : List Char), isAsciiDigit c = false → c ≠ '+' →
      parseU8 (c :: rest) = none) ∧
    (∀ l : List Char, l.all isAsciiDigit = true → 255 < digitsVal l →
      parseU8 l = none) := by
  refine ⟨?_, ?_, ?_, ?_⟩
  · intro input hne hp
    constructor
    · refine ⟨_, validate_midi_value_of_parse_err hne hp, ?_, ?_⟩
      · have h1 : "Invalid value".toList <:+:
            "Warning: Invalid value ".toList := by decide
        refine List.IsInfix.trans h1 ( List.IsPrefix.isInfix ?_)
        have hassoc : "Warning: Invalid value ".toList ++ [squote] ++
            trim input ++ [squote] ++ ". Using default value 0.".toList =
            "Warning: Invalid value ".toList ++ ([squote] ++ trim input ++
              [squote] ++ ". Using default value 0.".toList) := by
          simp [List.append_assoc]
        rw [hassoc]
        exact List.prefix_append _ _
      · refine ⟨"Warning: Invalid value ".toList ++ [squote],
          [squote] ++ ". Using default value 0.".toList, ?_⟩
        simp [List.append_assoc]
    · refine ⟨_, validate_midi_channel_of_parse_err hne hp, ?_, ?_⟩
      · have h1 : "Invalid channel".toList <:+:
            "Warning: Invalid channel ".toList := by decide
        refine List.IsInfix.trans h1 ( List.IsPrefix.isInfix ?_)
        have hassoc : "Warning: Invalid channel ".toList ++ [squote] ++
            trim input ++ [squote] ++ ". Using default channel 0.".toList =
            "Warning: Invalid channel ".toList ++ ([squote] ++ trim input ++
              [squote] ++ ". Using default channel 0.".toList) := by
          simp [List.append_assoc]
        rw [hassoc]
        exact List.prefix_append _ _
      · refine ⟨"Warning: Invalid channel ".toList ++ [squote],
          [squote] ++ ". Using default channel 0.".toList, ?_⟩
        simp [List.append_assoc]
  · intro rest
    simp [parseU8, isAsciiDigit]
  · intro c rest hcd hcp
    simp only [parseU8, if_neg hcp]
    rw [if_neg (by simp), if_neg (by simp [List.all_cons, hcd])]
  · intro l hall hbig
    cases l with
    | nil => simp [digitsVal] at hbig
    | cons c rest =>
      have hc : isAsciiDigit c = true := by
        have h2 := List.all_eq_true.mp hall
        exact h2 c (List.mem_cons_self c rest)
      simp only [parseU8, if_neg ( ne_plus_of_isAsciiDigit hc)]
      rw [if_neg (by simp), if_pos hall, if_neg (by omega)]

theorem c3_invalid_input_diagnostics_witness :
    (∃ m, validate_midi_value ("abc".toList) = (0, some m) ∧
      "Invalid value".toList <:+: m ∧ trim ("abc".toList) <:+: m) ∧
    (∃ m, validate_midi_channel ("abc".toList) = (0, some m) ∧
      "Invalid channel".toList <:+: m ∧ trim ("abc".toList) <:+: m) :=
  c3_invalid_input_diagnostics.1 ("abc".toList) (by decide) (by decide)

end MidiCC
